import Mathlib

/-!
Verification of the particle-system core of `pyopengl-particle-system`.

The embedding mirrors `src/plane_attractor.py` and `src/particle_system.py`.
Machine floats are modelled by exact rationals; the transcendental helpers
(`math.cos`, `math.sin`, the constant `2 * math.pi`) and the raw draws of
`random.uniform` are abstracted into an environment record, since the claims
never depend on their concrete values.  Python's `random.uniform(a, b)` is
literally `a + (b - a) * random()`, which is reproduced exactly.
-/

namespace ParticleSim

/-- Three-dimensional vector over the rationals (modelling the `np.array([x, y, z])`
values the simulation core manipulates). -/
structure Vec3 where
  x : ℚ
  y : ℚ
  z : ℚ
deriving DecidableEq, Repr

namespace Vec3

/-- Componentwise vector addition (`numpy` elementwise `+`). -/
def add (a b : Vec3) : Vec3 := ⟨a.x + b.x, a.y + b.y, a.z + b.z⟩

/-- Scalar multiplication (`numpy` scalar `*` broadcast). -/
def smul (c : ℚ) (a : Vec3) : Vec3 := ⟨c * a.x, c * a.y, c * a.z⟩

/-- The zero vector, `np.zeros(3)`. -/
def zero : Vec3 := ⟨0, 0, 0⟩

/-- Dot product. -/
def dot (a b : Vec3) : ℚ := a.x * b.x + a.y * b.y + a.z * b.z

/-- Squared Euclidean norm; used to compare force magnitudes without
leaving the rationals. -/
def normSq (a : Vec3) : ℚ := a.x * a.x + a.y * a.y + a.z * a.z

end Vec3

/-- Rational `np.sign`: `-1`, `0` or `1`. -/
def sgn (q : ℚ) : ℚ := if q < 0 then -1 else if 0 < q then 1 else 0

/-- Plane attractor state from `src/plane_attractor.py`.

The Python constructor stores the plane point, normalizes the supplied
normal vector, and stores `strength` and `range`.  Normalization divides by
a Euclidean norm (a square root), which has no rational counterpart, so the
embedding takes the already-normalized `normal` as the field value; claims
that need a unit normal carry the hypothesis `normal.normSq = 1`.
-/
structure PlaneAttractor where
  position : Vec3
  normal : Vec3
  strength : ℚ
  range : ℚ
deriving DecidableEq, Repr

namespace PlaneAttractor

/-- Plane equation coefficient `A` (constructor line `self.A = self.normal[0]`). -/
def A (a : PlaneAttractor) : ℚ := a.normal.x

/-- Plane equation coefficient `B`. -/
def B (a : PlaneAttractor) : ℚ := a.normal.y

/-- Plane equation coefficient `C`. -/
def C (a : PlaneAttractor) : ℚ := a.normal.z

/-- Plane equation coefficient `D = -dot(normal, position)`. -/
def D (a : PlaneAttractor) : ℚ := -(Vec3.dot a.normal a.position)

/-- The `distance` local of `get_force`:
`A * point[0] + B * point[1] + C * point[2] + D`. -/
def signedDist (a : PlaneAttractor) (point : Vec3) : ℚ :=
  a.A * point.x + a.B * point.y + a.C * point.z + a.D

/-- Force computation `PlaneAttractor.get_force` from `src/plane_attractor.py`:
if `abs(distance) > range` return `np.zeros(3)`, otherwise return
`force_magnitude * force_direction` with
`force_magnitude = strength * (1 - abs(distance) / range)` and
`force_direction = -sign(distance) * normal`. -/
def get_force (a : PlaneAttractor) (position : Vec3) : Vec3 :=
  let distance := a.signedDist position
  if |distance| > a.range then Vec3.zero
  else
    let force_magnitude := a.strength * (1 - |distance| / a.range)
    Vec3.smul force_magnitude (Vec3.smul (-(sgn distance)) a.normal)

/-- The guard `abs(distance) > self.range` fails and the subsequent float
division `abs(distance) / self.range` has a zero denominator.  In the Python
source this is the exact condition under which `get_force` performs a
division by zero (producing a NaN under numpy semantics); the rational
embedding records it as a flag because `ℚ` silently maps `q / 0` to `0`. -/
def get_force_hits_zero_div (a : PlaneAttractor) (position : Vec3) : Bool :=
  ¬ |a.signedDist position| > a.range ∧ a.range = 0

end PlaneAttractor

/-- RGBA colour, the 4-element Python list `[r, g, b, a]`; index `3` is the
alpha channel `color[3]`. -/
structure Color where
  r : ℚ
  g : ℚ
  b : ℚ
  a : ℚ
deriving DecidableEq, Repr

/-- Particle state from `src/particle_system.py`. -/
structure Particle where
  position : Vec3
  velocity : Vec3
  size : ℚ
  color : Color
  lifetime : ℚ
  max_lifetime : ℚ
  trail : List Vec3
deriving DecidableEq, Repr

/-- Constructor `Particle.__init__`: stores copies of the arguments and initializes
`self.trail = [position.copy()]`. -/
def particleInit (position velocity : Vec3) (size : ℚ) (color : Color)
    (lifetime max_lifetime : ℚ) : Particle :=
  { position := position
    velocity := velocity
    size := size
    color := color
    lifetime := lifetime
    max_lifetime := max_lifetime
    trail := [position] }

namespace Particle

/-- Method `Particle.update(dt, attractor)`: applies the optional attractor force to
the velocity, then moves the position by the updated velocity, appends the
new position to the trail, decrements the lifetime, recomputes the alpha
channel as `lifetime / max_lifetime`, and returns whether `lifetime > 0`.
(`ℚ` maps `q / 0` to `0` where Python floats would raise `ZeroDivisionError`;
claims touching the alpha computation assume `max_lifetime ≠ 0`.) -/
def update (p : Particle) (dt : ℚ) (attractor : Option PlaneAttractor) :
    Particle × Bool :=
  let velocity :=
    match attractor with
    | some att => Vec3.add p.velocity (Vec3.smul dt (att.get_force p.position))
    | none => p.velocity
  let position := Vec3.add p.position (Vec3.smul dt velocity)
  let trail := p.trail ++ [position]
  let lifetime := p.lifetime - dt
  let life_ratio := lifetime / p.max_lifetime
  ({ p with
      position := position
      velocity := velocity
      trail := trail
      lifetime := lifetime
      color := { p.color with a := life_ratio } },
    decide (lifetime > 0))

/-- Python's slice `l[-k:]` for a nonnegative `k`: the whole list when
`k = 0` (since `-0 == 0`), otherwise the last `min (l.length) k` elements. -/
def lastSlice (l : List Vec3) (k : ℕ) : List Vec3 :=
  if k = 0 then l else l.drop (l.length - k)

/-- Method `Particle.reset_trail(max_length)`:
`if len(self.trail) > max_length: self.trail = self.trail[-max_length:]`. -/
def reset_trail (p : Particle) (max_length : ℕ) : Particle :=
  if p.trail.length > max_length then
    { p with trail := lastSlice p.trail max_length }
  else p

end Particle

/-- Environment abstracting what the core samples from the outside world:
`math.cos`, `math.sin`, the float constant `2 * math.pi`, and the stream of
raw `random.random()` draws in `[0, 1]` that `random.uniform` consumes
(one fresh index per draw). -/
structure Env where
  cosF : ℚ → ℚ
  sinF : ℚ → ℚ
  twoPi : ℚ
  rand : ℕ → ℚ

/-- CPython's `random.uniform(a, b)`, which returns `a + (b - a) * r` for a
raw draw `r`. -/
def uniform (a b r : ℚ) : ℚ := a + (b - a) * r

/-- System state `ParticleSystem` from `src/particle_system.py`; `count` and
`trail_length` are the Python ints, the property ranges are the floats set
in `__init__`. -/
structure ParticleSystem where
  count : ℕ
  trail_length : ℕ
  emitter_radius : ℚ
  emitter_height : ℚ
  min_size : ℚ
  max_size : ℚ
  min_speed : ℚ
  max_speed : ℚ
  min_lifetime : ℚ
  max_lifetime : ℚ
  particles : List Particle

namespace ParticleSystem

/-- Method `ParticleSystem.create_particle`: draws, in source order, the angle,
height, speed, size, three colour channels and the particle lifetime, and
builds the particle on the cylinder surface with `lifetime == max_lifetime`
and alpha `1.0`.  Returns the new particle together with the next unused
index into the draw stream. -/
def create_particle (env : Env) (sys : ParticleSystem) (k : ℕ) :
    Particle × ℕ :=
  let angle := uniform 0 env.twoPi (env.rand k)
  let height := uniform (-(sys.emitter_height / 2)) (sys.emitter_height / 2)
    (env.rand (k + 1))
  let x := sys.emitter_radius * env.cosF angle
  let y := height
  let z := sys.emitter_radius * env.sinF angle
  let position : Vec3 := ⟨x, y, z⟩
  let normal : Vec3 := ⟨env.cosF angle, 0, env.sinF angle⟩
  let speed := uniform sys.min_speed sys.max_speed (env.rand (k + 2))
  let velocity := Vec3.smul speed normal
  let size := uniform sys.min_size sys.max_size (env.rand (k + 3))
  let color : Color :=
    { r := uniform (3/10) 1 (env.rand (k + 4))
      g := uniform (3/10) 1 (env.rand (k + 5))
      b := uniform (3/10) 1 (env.rand (k + 6))
      a := 1 }
  let max_lifetime := uniform sys.min_lifetime sys.max_lifetime (env.rand (k + 7))
  (particleInit position velocity size color max_lifetime max_lifetime, k + 8)

/-- The loop body of `ParticleSystem.reset`: append `count` freshly created
particles. -/
def resetLoop (env : Env) (sys : ParticleSystem) : ℕ → ℕ → List Particle × ℕ
  | 0, k => ([], k)
  | n + 1, k =>
    let pk := create_particle env sys k
    let restk := resetLoop env sys n pk.2
    (pk.1 :: restk.1, restk.2)

/-- Method `ParticleSystem.reset()`: discards the pool and recreates `count`
particles via `create_particle`. -/
def reset (env : Env) (sys : ParticleSystem) (k : ℕ) : ParticleSystem × ℕ :=
  let psk := resetLoop env sys sys.count k
  ({ sys with particles := psk.1 }, psk.2)

/-- Constructor `ParticleSystem.__init__(count, trail_length, emitter_radius,
emitter_height)`: stores the configuration, sets the property ranges to the
literals of the source, and calls `reset`. -/
def init (env : Env) (count trail_length : ℕ)
    (emitter_radius emitter_height : ℚ) (k : ℕ) : ParticleSystem × ℕ :=
  reset env
    { count := count
      trail_length := trail_length
      emitter_radius := emitter_radius
      emitter_height := emitter_height
      min_size := 1/20
      max_size := 3/20
      min_speed := 1/2
      max_speed := 2
      min_lifetime := 3
      max_lifetime := 8
      particles := [] } k

/-- The loop body of `ParticleSystem.update`: each particle is updated; a
still-alive particle has its trail trimmed to `trail_length` and is kept,
an expired one is replaced by a brand-new particle in the same slot. -/
def updateLoop (env : Env) (sys : ParticleSystem) (dt : ℚ)
    (attractor : Option PlaneAttractor) : List Particle → ℕ → List Particle × ℕ
  | [], k => ([], k)
  | p :: rest, k =>
    let pu := p.update dt attractor
    if pu.2 then
      let restk := updateLoop env sys dt attractor rest k
      (pu.1.reset_trail sys.trail_length :: restk.1, restk.2)
    else
      let fresh := create_particle env sys k
      let restk := updateLoop env sys dt attractor rest fresh.2
      (fresh.1 :: restk.1, restk.2)

/-- Method `ParticleSystem.update(dt, attractor)` over the whole pool. -/
def update (env : Env) (sys : ParticleSystem) (dt : ℚ)
    (attractor : Option PlaneAttractor) (k : ℕ) : ParticleSystem × ℕ :=
  let psk := updateLoop env sys dt attractor sys.particles k
  ({ sys with particles := psk.1 }, psk.2)

end ParticleSystem

/-- A call the embedding can make on a particle system: `update(dt,
attractor)` or `reset()`. -/
inductive SysOp where
  | update (dt : ℚ) (attractor : Option PlaneAttractor)
  | reset
deriving Repr

/-- Run a finite sequence of `update`/`reset` calls. -/
def runOps (env : Env) : ParticleSystem → ℕ → List SysOp → ParticleSystem × ℕ
  | sys, k, [] => (sys, k)
  | sys, k, op :: rest =>
    let sk :=
      match op with
      | SysOp.update dt attractor => sys.update env dt attractor k
      | SysOp.reset => sys.reset env k
    runOps env sk.1 sk.2 rest

/-- Run a finite sequence of bare `Particle.update(dt, attractor)` calls
(no trail trimming), as in the per-particle clauses of the spec. -/
def runUpdates (p : Particle) : List (ℚ × Option PlaneAttractor) → Particle
  | [] => p
  | (dt, att) :: rest => runUpdates (p.update dt att).1 rest

/-- The invariant implicitly maintained on a particle's trail: it is
non-empty and its last entry is the particle's current position. -/
def TrailInv (p : Particle) : Prop :=
  p.trail ≠ [] ∧ p.trail.getLast? = some p.position

/-! Concrete inputs used to instantiate the theorems below. -/

/-- Concrete attractor: plane through the origin with normal `(0,1,0)`,
strength `1`, range `2`. -/
def attW1 : PlaneAttractor := ⟨⟨0, 0, 0⟩, ⟨0, 1, 0⟩, 1, 2⟩

/-- Concrete attractor with `range = 0` (degenerate configuration from the
error-handling clause of the spec). -/
def attW6 : PlaneAttractor := ⟨⟨0, 0, 0⟩, ⟨0, 1, 0⟩, 1, 0⟩

/-- The spec's scenario attractor: plane through `(0,-5,0)` with normal
`(0,1,0)`, strength `0.5`, range `8`. -/
def attW7 : PlaneAttractor := ⟨⟨0, -5, 0⟩, ⟨0, 1, 0⟩, 1/2, 8⟩

/-- Concrete environment: draws are all `1/2`, trigonometry evaluates the
emission angle to the point `(1, ·, 0)` of the cylinder. -/
def envW : Env := ⟨fun _ => 1, fun _ => 0, 44/7, fun _ => 1/2⟩

/-- A concrete particle with one particle's worth of simple state. -/
def pW : Particle := particleInit ⟨1, 0, 0⟩ ⟨0, 1, 0⟩ (1/10) ⟨1, 1, 1, 1⟩ 2 2

/-- A particle constructed with `max_lifetime = 0`, exactly as
`Particle(position, velocity, size, color, 0.0, 0.0)` would be. -/
def pW8 : Particle := particleInit ⟨0, 0, 0⟩ ⟨0, 0, 0⟩ 1 ⟨1, 1, 1, 1⟩ 0 0

/-- A concrete particle whose trail has three entries, ending at its
current position. -/
def pW5 : Particle :=
  { position := ⟨3, 0, 0⟩
    velocity := ⟨1, 0, 0⟩
    size := 1/10
    color := ⟨1, 1, 1, 1⟩
    lifetime := 5
    max_lifetime := 5
    trail := [⟨1, 0, 0⟩, ⟨2, 0, 0⟩, ⟨3, 0, 0⟩] }

/-- A concrete one-particle system with the source's default property
ranges. -/
def sysW : ParticleSystem :=
  { count := 1
    trail_length := 4
    emitter_radius := 1
    emitter_height := 2
    min_size := 1/20
    max_size := 3/20
    min_speed := 1/2
    max_speed := 2
    min_lifetime := 3
    max_lifetime := 8
    particles := [pW] }

/-! Helper lemmas. -/

theorem Vec3.normSq_nonneg (a : Vec3) : 0 ≤ a.normSq := by
  have hx := mul_self_nonneg a.x
  have hy := mul_self_nonneg a.y
  have hz := mul_self_nonneg a.z
  unfold Vec3.normSq
  linarith

theorem Vec3.smul_zero_vec (c : ℚ) : Vec3.smul c Vec3.zero = Vec3.zero := by
  simp [Vec3.smul, Vec3.zero]

theorem Vec3.zero_smul_vec (a : Vec3) : Vec3.smul 0 a = Vec3.zero := by
  simp [Vec3.smul, Vec3.zero]

theorem Vec3.normSq_smul (c : ℚ) (a : Vec3) :
    (Vec3.smul c a).normSq = c ^ 2 * a.normSq := by
  unfold Vec3.normSq Vec3.smul
  ring

theorem sgn_zero : sgn 0 = 0 := by simp [sgn]

theorem sgn_sq_of_ne_zero {q : ℚ} (h : q ≠ 0) : sgn q ^ 2 = 1 := by
  rcases lt_trichotomy q 0 with hlt | heq | hgt
  · simp [sgn, hlt]
  · exact absurd heq h
  · simp [sgn, hgt, not_lt_of_gt hgt]

theorem uniform_mem {a b r : ℚ} (hab : a ≤ b) (h0 : 0 ≤ r) (h1 : r ≤ 1) :
    a ≤ uniform a b r ∧ uniform a b r ≤ b := by
  unfold uniform
  constructor
  · nlinarith
  · nlinarith

theorem getLast?_drop_of_lt {α : Type} :
    ∀ (l : List α) (n : ℕ), n < l.length → (l.drop n).getLast? = l.getLast?
  | [], n, h => by simp at h
  | _ :: _, 0, _ => rfl
  | [a], n + 1, h => by simp at h
  | a :: b :: l, n + 1, h => by
    have hlt : n < (b :: l).length := by simpa using h
    rw [List.drop_succ_cons, getLast?_drop_of_lt (b :: l) n hlt,
      List.getLast?_cons_cons]

theorem lastSlice_length (l : List Vec3) {k : ℕ} (hk : 1 ≤ k) :
    (Particle.lastSlice l k).length = min l.length k := by
  unfold Particle.lastSlice
  rw [if_neg (by omega)]
  rw [List.length_drop]
  omega

theorem lastSlice_getLast? (l : List Vec3) {k : ℕ} (hk : 1 ≤ k)
    (hne : l ≠ []) :
    (Particle.lastSlice l k).getLast? = l.getLast? := by
  unfold Particle.lastSlice
  rw [if_neg (by omega)]
  apply getLast?_drop_of_lt
  have hpos : 0 < l.length := List.length_pos.mpr hne
  omega

theorem get_force_outside {a : PlaneAttractor} {p : Vec3}
    (h : |a.signedDist p| > a.range) : a.get_force p = Vec3.zero := by
  simp only [PlaneAttractor.get_force]
  rw [if_pos h]

theorem get_force_inside {a : PlaneAttractor} {p : Vec3}
    (h : ¬ |a.signedDist p| > a.range) :
    a.get_force p
      = Vec3.smul (a.strength * (1 - |a.signedDist p| / a.range))
        (Vec3.smul (-(sgn (a.signedDist p))) a.normal) := by
  simp only [PlaneAttractor.get_force]
  rw [if_neg h]

theorem normSq_get_force_inside {a : PlaneAttractor} {p : Vec3}
    (hn : a.normal.normSq = 1) (hnot : ¬ |a.signedDist p| > a.range)
    (hd : a.signedDist p ≠ 0) :
    (a.get_force p).normSq
      = (a.strength * (1 - |a.signedDist p| / a.range)) ^ 2 := by
  rw [get_force_inside hnot, Vec3.normSq_smul, Vec3.normSq_smul, hn,
    neg_sq, sgn_sq_of_ne_zero hd]
  ring

theorem get_force_at_plane {a : PlaneAttractor} {p : Vec3}
    (hr : 0 < a.range) (hd : a.signedDist p = 0) :
    a.get_force p = Vec3.zero := by
  have hnot : ¬ |a.signedDist p| > a.range := by
    rw [hd, abs_zero]
    exact not_lt_of_ge (le_of_lt hr)
  rw [get_force_inside hnot, hd, sgn_zero, neg_zero, Vec3.zero_smul_vec,
    Vec3.smul_zero_vec]

/-! Claim theorems. -/

/-- C1: for a plane attractor with positive range and unit normal, a query
beyond the range gets the zero vector; otherwise the force is the unit
normal scaled by `-sign(d)` times the magnitude `strength * (1 - |d| /
range)` — so its squared norm is that magnitude squared whenever `d ≠ 0`,
and at `d = 0` the force is exactly the zero vector (`sign(0) = 0`). -/
theorem claim_C1_plane_force (a : PlaneAttractor) (p : Vec3)
    (hr : 0 < a.range) (hn : a.normal.normSq = 1) :
    (|a.signedDist p| > a.range → a.get_force p = Vec3.zero) ∧
    (|a.signedDist p| ≤ a.range →
      (a.get_force p
          = Vec3.smul (a.strength * (1 - |a.signedDist p| / a.range))
            (Vec3.smul (-(sgn (a.signedDist p))) a.normal)) ∧
      (a.signedDist p ≠ 0 →
        (a.get_force p).normSq
          = (a.strength * (1 - |a.signedDist p| / a.range)) ^ 2) ∧
      (a.signedDist p = 0 → a.get_force p = Vec3.zero)) := by
  constructor
  · exact fun h => get_force_outside h
  · intro h
    have hnot : ¬ |a.signedDist p| > a.range := not_lt_of_ge h
    refine ⟨get_force_inside hnot, ?_, ?_⟩
    · exact fun hd => normSq_get_force_inside hn hnot hd
    · exact fun hd => get_force_at_plane hr hd

/-- Witness for C1 at the concrete attractor `attW1` and the point
`(0, 1, 0)` (signed distance `1`, inside the range `2`). -/
theorem claim_C1_plane_force_witness :
    0 < attW1.range ∧ Vec3.normSq attW1.normal = 1 ∧
      attW1.get_force ⟨0, 1, 0⟩
        = Vec3.smul (attW1.strength * (1 - |attW1.signedDist ⟨0, 1, 0⟩| / attW1.range))
          (Vec3.smul (-(sgn (attW1.signedDist ⟨0, 1, 0⟩))) attW1.normal) :=
  ⟨by norm_num [attW1], by norm_num [attW1, Vec3.normSq],
    ((claim_C1_plane_force attW1 ⟨0, 1, 0⟩ (by norm_num [attW1])
        (by norm_num [attW1, Vec3.normSq])).2
      (by norm_num [attW1, PlaneAttractor.signedDist, PlaneAttractor.A,
        PlaneAttractor.B, PlaneAttractor.C, PlaneAttractor.D, Vec3.dot])).1⟩

/-- C2: `Particle.update` is semi-implicit Euler.  With a force field, the
velocity becomes `velocity + get_force(old position) * dt` and then the
position becomes `position + new velocity * dt`; with no field the position
becomes `position + old velocity * dt` and the velocity is unchanged. -/
theorem claim_C2_semi_implicit_euler (p : Particle) (dt : ℚ) :
    (∀ att : PlaneAttractor,
      (p.update dt (some att)).1.velocity
          = Vec3.add p.velocity (Vec3.smul dt (att.get_force p.position)) ∧
      (p.update dt (some att)).1.position
          = Vec3.add p.position
            (Vec3.smul dt ((p.update dt (some att)).1.velocity))) ∧
    (p.update dt none).1.position = Vec3.add p.position (Vec3.smul dt p.velocity) ∧
    (p.update dt none).1.velocity = p.velocity :=
  ⟨fun _ => ⟨rfl, rfl⟩, rfl, rfl⟩

/-- C6 (code bug): for the attractor `attW6` with `range = 0`, the query
point `(0,0,0)` lies exactly on the plane, the guard `abs(distance) >
range` does not fire, and `get_force` reaches the division
`abs(distance) / range` with a zero denominator — under numpy float
semantics this `0.0 / 0.0` yields NaN, so the returned vector is a NaN
vector rather than the zero vector the claim requires. -/
theorem claim_C6_zero_range_division_by_zero :
    attW6.range = 0 ∧ attW6.signedDist ⟨0, 0, 0⟩ = 0 ∧
      attW6.get_force_hits_zero_div ⟨0, 0, 0⟩ = true := by
  refine ⟨by norm_num [attW6], ?_, ?_⟩
  · norm_num [attW6, PlaneAttractor.signedDist, PlaneAttractor.A,
      PlaneAttractor.B, PlaneAttractor.C, PlaneAttractor.D, Vec3.dot]
  · norm_num [PlaneAttractor.get_force_hits_zero_div, attW6,
      PlaneAttractor.signedDist, PlaneAttractor.A, PlaneAttractor.B,
      PlaneAttractor.C, PlaneAttractor.D, Vec3.dot]

/-- C7 counterexample: in the spec scenario (plane through `(0,-5,0)`,
normal `(0,1,0)`, strength `0.5`, range `8`), the point `(0,-5,0)` lies
exactly on the plane, yet `get_force` returns the zero vector — magnitude
`0`, not the claimed maximum `strength = 0.5` — because `sign(0) = 0`. -/
theorem claim_C7_counterexample :
    attW7.signedDist ⟨0, -5, 0⟩ = 0 ∧
    attW7.get_force ⟨0, -5, 0⟩ = Vec3.zero ∧
    (attW7.get_force ⟨0, -5, 0⟩).normSq ≠ attW7.strength ^ 2 := by
  have hd : attW7.signedDist ⟨0, -5, 0⟩ = 0 := by
    norm_num [attW7, PlaneAttractor.signedDist, PlaneAttractor.A,
      PlaneAttractor.B, PlaneAttractor.C, PlaneAttractor.D, Vec3.dot]
  have hz : attW7.get_force ⟨0, -5, 0⟩ = Vec3.zero :=
    get_force_at_plane (by norm_num [attW7]) hd
  refine ⟨hd, hz, ?_⟩
  rw [hz]
  norm_num [Vec3.normSq, Vec3.zero, attW7]

/-- C7 as amended: with positive range and unit normal, the force at a
point exactly on the plane is the zero vector (magnitude `0`, not
`strength`); at or beyond the range boundary the force is the zero vector;
and the squared force magnitude is weakly decreasing in `|d|` on the
punctured interval `0 < |d|`. -/
theorem claim_C7_force_profile (a : PlaneAttractor)
    (hr : 0 < a.range) (hn : a.normal.normSq = 1) :
    (∀ p, a.signedDist p = 0 → a.get_force p = Vec3.zero) ∧
    (∀ p, a.range ≤ |a.signedDist p| → a.get_force p = Vec3.zero) ∧
    (∀ p q, 0 < |a.signedDist p| → |a.signedDist p| ≤ |a.signedDist q| →
      (a.get_force q).normSq ≤ (a.get_force p).normSq) := by
  refine ⟨fun p hd => get_force_at_plane hr hd, ?_, ?_⟩
  · intro p hge
    rcases lt_or_eq_of_le hge with hlt | heq
    · exact get_force_outside hlt
    · have hnot : ¬ |a.signedDist p| > a.range := by
        rw [← heq]
        exact lt_irrefl _
      rw [get_force_inside hnot, ← heq, div_self (ne_of_gt hr)]
      norm_num [Vec3.smul_zero_vec, Vec3.zero_smul_vec]
  · intro p q hp hpq
    by_cases hq : |a.signedDist q| > a.range
    · rw [get_force_outside hq]
      have : (Vec3.zero).normSq = 0 := by norm_num [Vec3.normSq, Vec3.zero]
      rw [this]
      exact Vec3.normSq_nonneg _
    · have hqle : |a.signedDist q| ≤ a.range := le_of_not_lt hq
      have hple : |a.signedDist p| ≤ a.range := le_trans hpq hqle
      have hpnot : ¬ |a.signedDist p| > a.range := not_lt_of_ge hple
      have hdp : a.signedDist p ≠ 0 := abs_pos.mp hp
      have hdq : a.signedDist q ≠ 0 := abs_pos.mp (lt_of_lt_of_le hp hpq)
      rw [normSq_get_force_inside hn hq hdq, normSq_get_force_inside hn hpnot hdp]
      have h1 : 0 ≤ 1 - |a.signedDist q| / a.range := by
        rw [sub_nonneg]
        exact (div_le_one hr).mpr hqle
      have h2 : 1 - |a.signedDist q| / a.range ≤ 1 - |a.signedDist p| / a.range := by
        have hdiv : |a.signedDist p| / a.range ≤ |a.signedDist q| / a.range :=
          (div_le_div_iff_of_pos_right hr).mpr hpq
        linarith
      rw [mul_pow, mul_pow]
      exact mul_le_mul_of_nonneg_left (pow_le_pow_left₀ h1 h2 2) (sq_nonneg a.strength)

/-- Witness for the amended C7 at the spec's scenario attractor: the
boundary point `(0, 3, 0)` has `|d| = 8 = range` and receives zero force. -/
theorem claim_C7_force_profile_witness :
    0 < attW7.range ∧ Vec3.normSq attW7.normal = 1 ∧
      attW7.get_force ⟨0, 3, 0⟩ = Vec3.zero :=
  ⟨by norm_num [attW7], by norm_num [attW7, Vec3.normSq],
    (claim_C7_force_profile attW7 (by norm_num [attW7])
        (by norm_num [attW7, Vec3.normSq])).2.1 ⟨0, 3, 0⟩
      (by norm_num [attW7, PlaneAttractor.signedDist, PlaneAttractor.A,
        PlaneAttractor.B, PlaneAttractor.C, PlaneAttractor.D, Vec3.dot])⟩

/-- C8 counterexample: `Particle.__init__` performs no validation — a
particle constructed with `max_lifetime = 0` keeps `max_lifetime = 0`, so
zero is neither disallowed nor clamped to a positive epsilon (and the
alpha computation `lifetime / max_lifetime` in `Particle.update` would
divide by zero for it). -/
theorem claim_C8_counterexample :
    pW8.max_lifetime = 0 ∧ ¬ 0 < pW8.max_lifetime :=
  ⟨rfl, by norm_num [pW8, particleInit]⟩

/-- C8 as amended: the `Particle` constructor itself never clamps, but
every particle the system creates through `create_particle` has
`max_lifetime = uniform(min_lifetime, max_lifetime)`, which is at least
the positive `min_lifetime` whenever the raw draws stay in `[0, 1]` — so
system-created particles never divide by zero in the alpha computation,
and start with `lifetime = max_lifetime`. -/
theorem claim_C8_created_lifetime_pos (env : Env) (sys : ParticleSystem)
    (k : ℕ) (hrand : ∀ i, 0 ≤ env.rand i ∧ env.rand i ≤ 1)
    (hmin : 0 < sys.min_lifetime)
    (hle : sys.min_lifetime ≤ sys.max_lifetime) :
    sys.min_lifetime ≤ ((sys.create_particle env k).1).max_lifetime ∧
    0 < ((sys.create_particle env k).1).max_lifetime ∧
    ((sys.create_particle env k).1).lifetime
      = ((sys.create_particle env k).1).max_lifetime := by
  have h := uniform_mem hle (hrand (k + 7)).1 (hrand (k + 7)).2
  exact ⟨h.1, lt_of_lt_of_le hmin h.1, rfl⟩

/-- Witness for the amended C8 at the concrete environment `envW` and the
one-particle system `sysW`. -/
theorem claim_C8_created_lifetime_pos_witness :
    0 < sysW.min_lifetime ∧ 0 < ((sysW.create_particle envW 0).1).max_lifetime :=
  ⟨by norm_num [sysW],
    (claim_C8_created_lifetime_pos envW sysW 0
        (fun i => ⟨by norm_num [envW], by norm_num [envW]⟩)
        (by norm_num [sysW]) (by norm_num [sysW])).2.1⟩

/-- C5 counterexample: for the bound `k = 0` the Python slice `trail[-0:]`
is the whole list, so `reset_trail(0)` on the three-entry trail of `pW5`
leaves all three entries in place instead of truncating to
`min(previous_length, 0) = 0` entries. -/
theorem claim_C5_counterexample :
    pW5.trail.length = 3 ∧ (pW5.reset_trail 0).trail.length = 3 ∧
      (pW5.reset_trail 0).trail.length ≠ min pW5.trail.length 0 := by
  refine ⟨rfl, ?_, ?_⟩
  · simp [pW5, Particle.reset_trail, Particle.lastSlice]
  · simp [pW5, Particle.reset_trail, Particle.lastSlice]

/-- C5 as amended: for every requested bound `k ≥ 1`, `reset_trail(k)`
leaves the last `min(previous_length, k)` trail entries, preserves the last
entry (the current position) of a non-empty trail, and is a no-op when the
trail is already within the bound.  (For `k = 0` the call is a no-op on any
non-empty trail, because Python's `trail[-0:]` slice is the whole list.) -/
theorem claim_C5_reset_trail (p : Particle) (k : ℕ) (hk : 1 ≤ k) :
    (p.reset_trail k).trail.length = min p.trail.length k ∧
    (p.trail ≠ [] → (p.reset_trail k).trail.getLast? = p.trail.getLast?) ∧
    (p.trail.length ≤ k → p.reset_trail k = p) := by
  by_cases hgt : p.trail.length > k
  · unfold Particle.reset_trail
    rw [if_pos hgt]
    refine ⟨?_, ?_, ?_⟩
    · show (Particle.lastSlice p.trail k).length = min p.trail.length k
      exact lastSlice_length p.trail hk
    · intro hne
      show (Particle.lastSlice p.trail k).getLast? = p.trail.getLast?
      exact lastSlice_getLast? p.trail hk hne
    · intro hle
      omega
  · unfold Particle.reset_trail
    rw [if_neg hgt]
    refine ⟨?_, fun _ => rfl, fun _ => rfl⟩
    omega

/-- Witness for the amended C5: truncating the three-entry trail of `pW5`
to the bound `2` keeps exactly `min 3 2 = 2` entries and the last entry. -/
theorem claim_C5_reset_trail_witness :
    1 ≤ 2 ∧ (pW5.reset_trail 2).trail.length = min pW5.trail.length 2 ∧
      (pW5.reset_trail 2).trail.getLast? = pW5.trail.getLast? :=
  ⟨by decide, (claim_C5_reset_trail pW5 2 (by decide)).1,
    (claim_C5_reset_trail pW5 2 (by decide)).2.1 (by simp [pW5])⟩

/-- C10: the trail is always non-empty with the current position as its
last entry: this holds at construction, after every `update` (which appends
the freshly moved position), and is preserved by `reset_trail(k)` for every
`k ≥ 0` (which keeps a suffix containing the last entry). -/
theorem claim_C10_trail_invariant :
    (∀ (pos vel : Vec3) (size : ℚ) (color : Color) (lt mlt : ℚ),
      TrailInv (particleInit pos vel size color lt mlt)) ∧
    (∀ (p : Particle) (dt : ℚ) (att : Option PlaneAttractor),
      TrailInv ((p.update dt att).1)) ∧
    (∀ (p : Particle) (k : ℕ), TrailInv p → TrailInv (p.reset_trail k)) := by
  refine ⟨?_, ?_, ?_⟩
  · intro pos vel size color lt mlt
    exact ⟨by simp [particleInit], by simp [particleInit]⟩
  · intro p dt att
    constructor
    · show p.trail ++ [_] ≠ []
      simp
    · show (p.trail ++ [_]).getLast? = some _
      exact List.getLast?_concat _
  · intro p k hp
    unfold Particle.reset_trail
    by_cases hgt : p.trail.length > k
    · rw [if_pos hgt]
      rcases Nat.eq_zero_or_pos k with hk0 | hk1
    -- `k = 0`: the slice is the whole trail, so the invariant carries over.
      · subst hk0
        unfold Particle.lastSlice
        rw [if_pos rfl]
        exact hp
      · constructor
        · show Particle.lastSlice p.trail k ≠ []
          have hlen := lastSlice_length p.trail hk1
          intro hnil
          rw [hnil] at hlen
          simp at hlen
          omega
        · show (Particle.lastSlice p.trail k).getLast? = some p.position
          rw [lastSlice_getLast? p.trail hk1 hp.1]
          exact hp.2
    · rw [if_neg hgt]
      exact hp

/-- Witness for C10 at the concrete particle `pW5` and bound `1`. -/
theorem claim_C10_trail_invariant_witness :
    TrailInv pW5 ∧ TrailInv (pW5.reset_trail 1) :=
  ⟨⟨by simp [pW5], by simp [pW5]⟩,
    claim_C10_trail_invariant.2.2 pW5 1 ⟨by simp [pW5], by simp [pW5]⟩⟩

theorem runUpdates_max_lifetime :
    ∀ (steps : List (ℚ × Option PlaneAttractor)) (p : Particle),
      (runUpdates p steps).max_lifetime = p.max_lifetime
  | [], _ => rfl
  | (dt, att) :: rest, p => by
    show (runUpdates (p.update dt att).1 rest).max_lifetime = p.max_lifetime
    rw [runUpdates_max_lifetime rest (p.update dt att).1]
    rfl

theorem runUpdates_lifetime_le :
    ∀ (steps : List (ℚ × Option PlaneAttractor)) (p : Particle),
      (∀ s ∈ steps, 0 ≤ s.1) → (runUpdates p steps).lifetime ≤ p.lifetime
  | [], _, _ => le_refl _
  | (dt, att) :: rest, p, h => by
    show (runUpdates (p.update dt att).1 rest).lifetime ≤ p.lifetime
    have h1 : 0 ≤ dt := h (dt, att) (List.mem_cons_self _ _)
    have h2 := runUpdates_lifetime_le rest (p.update dt att).1
      (fun s hs => h s (List.mem_cons_of_mem _ hs))
    have h3 : (p.update dt att).1.lifetime = p.lifetime - dt := rfl
    rw [h3] at h2
    linarith

theorem runUpdates_alpha :
    ∀ (steps : List (ℚ × Option PlaneAttractor)) (p : Particle), steps ≠ [] →
      (runUpdates p steps).color.a
        = (runUpdates p steps).lifetime / (runUpdates p steps).max_lifetime
  | [], _, h => absurd rfl h
  | [(_, _)], _, _ => rfl
  | (dt, att) :: s :: rest, p, _ =>
    runUpdates_alpha (s :: rest) (p.update dt att).1 (List.cons_ne_nil s rest)

/-- C4: right after any `update` call on a particle with positive
`max_lifetime`, the alpha channel equals `lifetime / max_lifetime`; and a
particle started at full life and driven only by nonnegative time steps
has, while it remains alive, an alpha in `(0, 1]` — its lifetime can never
exceed `max_lifetime`. -/
theorem claim_C4_alpha_lifetime_ratio (p : Particle) (hm : 0 < p.max_lifetime) :
    (∀ (dt : ℚ) (att : Option PlaneAttractor),
      ((p.update dt att).1).color.a
        = ((p.update dt att).1).lifetime / ((p.update dt att).1).max_lifetime) ∧
    (p.lifetime = p.max_lifetime →
      ∀ steps : List (ℚ × Option PlaneAttractor), steps ≠ [] →
        (∀ s ∈ steps, 0 ≤ s.1) →
        0 < (runUpdates p steps).lifetime →
          0 < (runUpdates p steps).color.a ∧ (runUpdates p steps).color.a ≤ 1) := by
  refine ⟨fun dt att => rfl, ?_⟩
  intro hinit steps hne hnn hpos
  have hmax := runUpdates_max_lifetime steps p
  have hle := runUpdates_lifetime_le steps p hnn
  have ha := runUpdates_alpha steps p hne
  rw [ha, hmax]
  rw [hinit] at hle
  exact ⟨div_pos hpos hm, (div_le_one hm).mpr hle⟩

/-- Witness for C4 at `pW` (full life `2`) after a single step `dt = 1`
with no attractor. -/
theorem claim_C4_alpha_lifetime_ratio_witness :
    0 < pW.max_lifetime ∧ 0 < (runUpdates pW [(1, none)]).lifetime ∧
      0 < (runUpdates pW [(1, none)]).color.a ∧
      (runUpdates pW [(1, none)]).color.a ≤ 1 :=
  ⟨by norm_num [pW, particleInit],
    by norm_num [runUpdates, pW, particleInit, Particle.update],
    (claim_C4_alpha_lifetime_ratio pW (by norm_num [pW, particleInit])).2 rfl
      [(1, none)] (by simp) (by norm_num)
      (by norm_num [runUpdates, pW, particleInit, Particle.update])⟩

theorem resetLoop_length (env : Env) (sys : ParticleSystem) :
    ∀ (n k : ℕ), ((ParticleSystem.resetLoop env sys n k).1).length = n
  | 0, _ => rfl
  | n + 1, k => by
    simp only [ParticleSystem.resetLoop, List.length_cons]
    rw [resetLoop_length env sys n]

theorem reset_particles_length (env : Env) (sys : ParticleSystem) (k : ℕ) :
    ((sys.reset env k).1).particles.length = sys.count := by
  show ((ParticleSystem.resetLoop env sys sys.count k).1).length = sys.count
  exact resetLoop_length env sys sys.count k

theorem updateLoop_length (env : Env) (sys : ParticleSystem) (dt : ℚ)
    (att : Option PlaneAttractor) :
    ∀ (l : List Particle) (k : ℕ),
      ((ParticleSystem.updateLoop env sys dt att l k).1).length = l.length
  | [], _ => rfl
  | p :: rest, k => by
    simp only [ParticleSystem.updateLoop]
    by_cases h : (p.update dt att).2
    · rw [if_pos h]
      simp only [List.length_cons]
      rw [updateLoop_length env sys dt att rest]
    · rw [if_neg h]
      simp only [List.length_cons]
      rw [updateLoop_length env sys dt att rest]

theorem runOps_pool (env : Env) :
    ∀ (ops : List SysOp) (sys : ParticleSystem) (k : ℕ),
      sys.particles.length = sys.count →
      ((runOps env sys k ops).1).particles.length = sys.count ∧
      ((runOps env sys k ops).1).count = sys.count
  | [], _, _, h => ⟨h, rfl⟩
  | op :: rest, sys, k, h => by
    cases op with
    | update dt att =>
      show (runOps env ((sys.update env dt att k).1) ((sys.update env dt att k).2) rest).1.particles.length = sys.count ∧ _
      have hcnt : ((sys.update env dt att k).1).count = sys.count := rfl
      have hlen : ((sys.update env dt att k).1).particles.length
          = ((sys.update env dt att k).1).count := by
        show ((ParticleSystem.updateLoop env sys dt att sys.particles k).1).length = sys.count
        rw [updateLoop_length env sys dt att sys.particles k, h]
      have ih := runOps_pool env rest ((sys.update env dt att k).1)
        ((sys.update env dt att k).2) hlen
      rw [hcnt] at ih
      exact ih
    | reset =>
      show (runOps env ((sys.reset env k).1) ((sys.reset env k).2) rest).1.particles.length = sys.count ∧ _
      have hcnt : ((sys.reset env k).1).count = sys.count := rfl
      have hlen : ((sys.reset env k).1).particles.length
          = ((sys.reset env k).1).count := by
        rw [reset_particles_length env sys k, hcnt]
      have ih := runOps_pool env rest ((sys.reset env k).1)
        ((sys.reset env k).2) hlen
      rw [hcnt] at ih
      exact ih

/-- C3: for a system built by `__init__` (which calls `reset`), the pool
holds exactly `count` particles after every finite sequence of
`update(dt, attractor)` and `reset()` calls — each dead particle is
replaced in the same pass, so the pool size never drifts. -/
theorem claim_C3_pool_size_invariant (env : Env) (count trail_length : ℕ)
    (emitter_radius emitter_height : ℚ) (k j : ℕ) (ops : List SysOp) :
    ((runOps env ((ParticleSystem.init env count trail_length emitter_radius
        emitter_height k).1) j ops).1).particles.length = count := by
  have hinit : ((ParticleSystem.init env count trail_length emitter_radius
      emitter_height k).1).particles.length
      = ((ParticleSystem.init env count trail_length emitter_radius
        emitter_height k).1).count := by
    show ((ParticleSystem.resetLoop env _ _ k).1).length = count
    exact resetLoop_length env _ count k
  exact (runOps_pool env ops _ j hinit).1

theorem updateLoop_all_expired (env : Env) (sys : ParticleSystem)
    (att : Option PlaneAttractor) :
    ∀ (l : List Particle) (k : ℕ),
      (∀ p ∈ l, p.lifetime ≤ p.max_lifetime ∧ p.max_lifetime ≤ 8) →
      ∀ q ∈ (ParticleSystem.updateLoop env sys 100 att l k).1,
        (∃ j, q = (sys.create_particle env j).1) ∧
        q.lifetime = q.max_lifetime ∧ q.color.a = 1
  | [], _, _, q, hq => absurd hq (List.not_mem_nil q)
  | p :: rest, k, h, q, hq => by
    have hp := h p (List.mem_cons_self p rest)
    have hdead : (p.update 100 att).2 = false := by
      have hneg : ¬ (p.lifetime - 100 > 0) := by
        have h1 := hp.1
        have h2 := hp.2
        intro hgt
        linarith
      show decide (p.lifetime - 100 > 0) = false
      exact decide_eq_false hneg
    rw [ParticleSystem.updateLoop] at hq
    rw [hdead] at hq
    simp only [Bool.false_eq_true, if_false, List.mem_cons] at hq
    rcases hq with hq | hq
    · subst hq
      exact ⟨⟨k, rfl⟩, rfl, rfl⟩
    · exact updateLoop_all_expired env sys att rest _
        (fun r hr => h r (List.mem_cons_of_mem p hr)) q hq

/-- C9: if every pooled particle has `lifetime ≤ max_lifetime ≤ 8`, a
single `update(dt = 100)` expires every one of them; the resulting pool has
the same size and consists solely of brand-new `create_particle` outputs,
each with `lifetime = max_lifetime` and alpha `1` — replacements are not
themselves aged within the pass. -/
theorem claim_C9_mass_expiry (env : Env) (sys : ParticleSystem)
    (att : Option PlaneAttractor) (k : ℕ)
    (h : ∀ p ∈ sys.particles, p.lifetime ≤ p.max_lifetime ∧ p.max_lifetime ≤ 8) :
    ((sys.update env 100 att k).1).particles.length = sys.particles.length ∧
    ∀ q ∈ ((sys.update env 100 att k).1).particles,
      (∃ j, q = (sys.create_particle env j).1) ∧
      q.lifetime = q.max_lifetime ∧ q.color.a = 1 := by
  constructor
  · show ((ParticleSystem.updateLoop env sys 100 att sys.particles k).1).length = _
    exact updateLoop_length env sys 100 att sys.particles k
  · intro q hq
    exact updateLoop_all_expired env sys att sys.particles k h q hq

/-- Witness for C9: the one-particle system `sysW` (particle at full life
`2 ≤ 8`) after `update(dt = 100)` holds exactly one particle, fresh and
fully opaque. -/
theorem claim_C9_mass_expiry_witness :
    (∀ p ∈ sysW.particles, p.lifetime ≤ p.max_lifetime ∧ p.max_lifetime ≤ 8) ∧
    ((sysW.update envW 100 none 0).1).particles.length = sysW.particles.length ∧
    ∀ q ∈ ((sysW.update envW 100 none 0).1).particles,
      q.lifetime = q.max_lifetime ∧ q.color.a = 1 :=
  ⟨by norm_num [sysW, pW, particleInit],
    (claim_C9_mass_expiry envW sysW none 0
      (by norm_num [sysW, pW, particleInit])).1,
    fun q hq => ((claim_C9_mass_expiry envW sysW none 0
      (by norm_num [sysW, pW, particleInit])).2 q hq).2⟩

end ParticleSim
